import Mathlib

/-!
# Verification of the request-processing pipeline of `runcals_ArticleGenerator`

Shallow embedding of the middleware pipeline of the repository:

* `app/middleware/rate_limit.py` — `RateLimitMiddleware` (sliding-window rate limiter),
* `app/middleware/security.py` — `APIKeyMiddleware` and `SecurityHeadersMiddleware`,
* `app/middleware/logging.py` — `LoggingMiddleware`,
* `app/main.py` — the middleware composition order.

Timestamps (Python `time.time()` floats) are modelled as integers.  Python
dictionaries are modelled as association lists (a Python `dict` has unique
keys; theorems that depend on that carry an explicit no-duplicate-keys
hypothesis).  Python exceptions used for control flow (`HTTPException`)
are modelled with `Except`.
-/

namespace ArticleGen

/-- The configuration fields of `app/config.py` consumed by the pipeline. -/
structure Settings where
  API_KEY : String
  API_KEY_HEADER : String
  RATE_LIMIT_ENABLED : Bool
  RATE_LIMIT_PER_MINUTE : Nat
  RATE_LIMIT_PER_HOUR : Nat
deriving Repr, DecidableEq

/-! ## Association lists modelling Python dictionaries -/

/-- Dictionary read with default `[]`: the value part of
`defaultdict(list).__getitem__` (`rate_limit.py` lines 79, 91). -/
def alGet : List (String × List ℤ) → String → List ℤ
  | [], _ => []
  | p :: m, k => if p.1 == k then p.2 else alGet m k

/-- `key in dict`. -/
def alContains : List (String × List ℤ) → String → Bool
  | [], _ => false
  | p :: m, k => p.1 == k || alContains m k

/-- `dict[key] = value`: replace the entry in place, or append a new one. -/
def alSet : List (String × List ℤ) → String → List ℤ → List (String × List ℤ)
  | [], k, v => [(k, v)]
  | p :: m, k, v => if p.1 == k then (k, v) :: m else p :: alSet m k v

/-- The entry-creating side effect of `defaultdict(list).__getitem__`:
if the key is absent an empty list is inserted. -/
def alEnsure : List (String × List ℤ) → String → List (String × List ℤ)
  | [], k => [(k, [])]
  | p :: m, k => if p.1 == k then p :: m else p :: alEnsure m k

/-- A Python `dict` never holds two entries with the same key. -/
def alNodupKeys (m : List (String × List ℤ)) : Prop :=
  (m.map Prod.fst).Nodup

/-! ## Rate limiter (`app/middleware/rate_limit.py`) -/

/-- The mutable state of `RateLimitMiddleware`: two timestamp maps and the
time of the last bulk sweep. -/
structure RateLimitState where
  requests_per_minute : List (String × List ℤ)
  requests_per_hour : List (String × List ℤ)
  last_cleanup : ℤ
deriving Repr, DecidableEq

/-- The per-map body of the bulk sweep (`rate_limit.py` lines 31-46): every
stored list is pruned to timestamps above the cutoff, and entries whose
pruned list is empty are deleted. -/
def alSweep (cutoff : ℤ) (m : List (String × List ℤ)) : List (String × List ℤ) :=
  (m.map (fun p => (p.1, p.2.filter (fun ts => ts > cutoff)))).filter
    (fun p => !p.2.isEmpty)

/-- `RateLimitMiddleware._cleanup_old_entries` (`rate_limit.py` lines 24-48):
a no-op within 300 seconds of the previous sweep; otherwise prune every
stored list to its window and delete entries that became empty. -/
def cleanupOldEntries (st : RateLimitState) (current_time : ℤ) : RateLimitState :=
  if current_time - st.last_cleanup < 300 then st
  else
    { requests_per_minute := alSweep (current_time - 60) st.requests_per_minute,
      requests_per_hour := alSweep (current_time - 3600) st.requests_per_hour,
      last_cleanup := current_time }

/-- Which of the two thresholds a rejection pertains to. -/
inductive Scope where
  | minute
  | hour
deriving Repr, DecidableEq

/-- Outcome of one pass through `RateLimitMiddleware.dispatch`:
`bypass` when the path is excluded or rate limiting is disabled,
`reject` the raised 429 (`Retry-After` seconds and scope), and `allow`
carrying the two remaining-quota header values (Python ints). -/
inductive RLResult where
  | bypass
  | reject (retryAfter : Nat) (scope : Scope)
  | allow (remainingMinute : ℤ) (remainingHour : ℤ)
deriving Repr, DecidableEq

/-- The paths `RateLimitMiddleware.dispatch` skips (`rate_limit.py` line 65). -/
def rateLimitBypassPaths : List String :=
  ["/api/v1/health", "/docs", "/redoc", "/openapi.json", "/"]

/-- `RateLimitMiddleware.dispatch` (`rate_limit.py` lines 63-115), as a state
transformer on `RateLimitState`.  The `alEnsure` steps mirror the
`defaultdict` reads on lines 79 and 91; on the allowed path the pruned
lists with the current timestamp appended are stored back (lines 102-106);
the `allow` payload carries the header values of lines 111 and 113. -/
def rateLimitDispatch (s : Settings) (st : RateLimitState) (path client_ip : String)
    (current_time : ℤ) : RLResult × RateLimitState :=
  if rateLimitBypassPaths.contains path then (.bypass, st)
  else if !s.RATE_LIMIT_ENABLED then (.bypass, st)
  else
    let st1 := cleanupOldEntries st current_time
    let minuteRequests0 := alGet st1.requests_per_minute client_ip
    let st2 := { st1 with
      requests_per_minute := alEnsure st1.requests_per_minute client_ip }
    let minuteRequests := minuteRequests0.filter (fun ts => ts > current_time - 60)
    if s.RATE_LIMIT_PER_MINUTE ≤ minuteRequests.length then
      (.reject 60 .minute, st2)
    else
      let hourRequests0 := alGet st2.requests_per_hour client_ip
      let st3 := { st2 with
        requests_per_hour := alEnsure st2.requests_per_hour client_ip }
      let hourRequests := hourRequests0.filter (fun ts => ts > current_time - 3600)
      if s.RATE_LIMIT_PER_HOUR ≤ hourRequests.length then
        (.reject 3600 .hour, st3)
      else
        let minuteRequests1 := minuteRequests ++ [current_time]
        let hourRequests1 := hourRequests ++ [current_time]
        let st4 := { st3 with
          requests_per_minute := alSet st3.requests_per_minute client_ip minuteRequests1,
          requests_per_hour := alSet st3.requests_per_hour client_ip hourRequests1 }
        (.allow ((s.RATE_LIMIT_PER_MINUTE : ℤ) - minuteRequests1.length)
                ((s.RATE_LIMIT_PER_HOUR : ℤ) - hourRequests1.length), st4)

/-- Run the rate limiter over a sequence of requests
`(path, client identifier, arrival time)`. -/
def runTrace (s : Settings) (st : RateLimitState) :
    List (String × String × ℤ) → List RLResult × RateLimitState
  | [] => ([], st)
  | r :: rest =>
    let step := rateLimitDispatch s st r.1 r.2.1 r.2.2
    let next := runTrace s step.2 rest
    (step.1 :: next.1, next.2)

/-- `true` exactly on `RLResult.allow`. -/
def isAllow : RLResult → Bool
  | .allow _ _ => true
  | _ => false

/-- The outcome the sliding-window policy predicts for a request from a
client whose minute and hour windows both hold `k` timestamps, all inside
both windows: admitted with remaining quota when `k` is below the minute
limit, otherwise rejected at minute scope. -/
def expectedResult (perMinuteLimit perHourLimit k : Nat) : RLResult :=
  if k < perMinuteLimit then
    .allow ((perMinuteLimit : ℤ) - (k + 1)) ((perHourLimit : ℤ) - (k + 1))
  else .reject 60 .minute

/-- The admission contract as the specification words it (§4.1): first prune
both sequences to their windows, then check the minute limit, then the hour
limit, otherwise append `now` to both and allow with the remaining counts
(floored at 0).  Returns the decision together with the sequences the
specification says are recorded on admission. -/
def admitSpec (perMinuteLimit perHourLimit : Nat) (minuteSeq hourSeq : List ℤ)
    (now : ℤ) : RLResult × List ℤ × List ℤ :=
  let prunedMinute := minuteSeq.filter (fun ts => ts > now - 60)
  let prunedHour := hourSeq.filter (fun ts => ts > now - 3600)
  if perMinuteLimit ≤ prunedMinute.length then
    (.reject 60 .minute, prunedMinute, prunedHour)
  else if perHourLimit ≤ prunedHour.length then
    (.reject 3600 .hour, prunedMinute, prunedHour)
  else
    (.allow (max 0 ((perMinuteLimit : ℤ) - (prunedMinute.length + 1)))
            (max 0 ((perHourLimit : ℤ) - (prunedHour.length + 1))),
     prunedMinute ++ [now], prunedHour ++ [now])

/-! ## HTTP model: requests, responses, headers -/

/-- The parts of a Starlette request the pipeline reads. -/
structure Request where
  path : String
  headers : List (String × String)
  clientHost : Option String
deriving Repr, DecidableEq

/-- The parts of a Starlette response the pipeline writes. -/
structure Response where
  status : Nat
  headers : List (String × String)
deriving Repr, DecidableEq

/-- An exception escaping a middleware: `HTTPException(status, detail, headers)`
raised by the rate limiter, or any other uncaught exception. -/
inductive Exc where
  | http (status : Nat) (detail : String) (headers : List (String × String))
  | other (msg : String)
deriving Repr, DecidableEq

/-- Python `str.strip()`: remove leading and trailing whitespace.  (Lean's
built-in `String.trim` is implemented by well-founded recursion on byte
positions, which the kernel cannot evaluate; this structurally recursive
equivalent keeps the embedding executable.) -/
def pyStrip (s : String) : String :=
  ⟨(((s.data.dropWhile Char.isWhitespace).reverse).dropWhile Char.isWhitespace).reverse⟩

/-- Python `str.lower()`, used for the case-insensitive header handling of
Starlette and of `security.py` line 85.  (`pyLower String` is implemented
with a byte-position loop the kernel cannot evaluate; this structurally
recursive equivalent keeps the embedding executable.) -/
def pyLower (s : String) : String := ⟨s.data.map Char.toLower⟩

/-- Case-insensitive header lookup (Starlette `Headers.get`): first entry whose
name matches up to ASCII case. -/
def headersGet (hs : List (String × String)) (name : String) : Option String :=
  match hs.find? (fun p => pyLower p.1 == pyLower name) with
  | some p => some p.2
  | none => none

/-- Case-insensitive header assignment (Starlette `MutableHeaders.__setitem__`):
replace matching entries or append. -/
def hset (hs : List (String × String)) (name value : String) :
    List (String × String) :=
  if hs.any (fun p => pyLower p.1 == pyLower name) then
    hs.map (fun p => if pyLower p.1 == pyLower name then (name, value) else p)
  else hs ++ [(name, value)]

/-- Case-insensitive header deletion (Starlette `MutableHeaders.__delitem__`). -/
def hdel (hs : List (String × String)) (name : String) : List (String × String) :=
  hs.filter (fun p => !(pyLower p.1 == pyLower name))

/-- Python string truthiness for an optional header value: `None` and the
empty string are falsy. -/
def truthy : Option String → Bool
  | none => false
  | some v => !(v == "")



/-! ## API key authenticator (`app/middleware/security.py`) -/

/-- The default `exclude_paths` of `APIKeyMiddleware.__init__`, and the list
`app/main.py` passes explicitly (lines 77-80): they coincide. -/
def mainExcludePaths : List String :=
  ["/", "/docs", "/redoc", "/openapi.json", "/api/v1/health"]

/-- The `header_variations` list of `security.py` lines 70-75. -/
def headerVariations (s : Settings) : List String :=
  [s.API_KEY_HEADER, pyLower s.API_KEY_HEADER, "x-api-key", "X-API-Key"]

/-- The first loop of `security.py` lines 77-80: try each header-name
variation with a case-insensitive get, stopping at the first truthy value.
(If every get is falsy the Python variable keeps a falsy value, which the
caller treats the same as no value; this is collapsed to `none`.) -/
def findApiKeyLoop1 (hs : List (String × String)) : List String → Option String
  | [] => none
  | n :: rest =>
    let v := headersGet hs n
    if truthy v then v else findApiKeyLoop1 hs rest

/-- The second loop of `security.py` lines 83-87: scan all headers for a
lower-cased name match and take the first value, even an empty one. -/
def findApiKeyLoop2 (s : Settings) (hs : List (String × String)) : Option String :=
  match hs.find? (fun p =>
      pyLower p.1 == "x-api-key" || pyLower p.1 == pyLower s.API_KEY_HEADER) with
  | some p => some p.2
  | none => none

/-- The combined credential lookup of `APIKeyMiddleware.dispatch`
(`security.py` lines 66-87). -/
def findApiKey (s : Settings) (hs : List (String × String)) : Option String :=
  match findApiKeyLoop1 hs (headerVariations s) with
  | some v => some v
  | none => findApiKeyLoop2 s hs

/-- Outcome of `APIKeyMiddleware.dispatch`: pass through, or the three
short-circuit responses (500 / 401 / 403). -/
inductive AuthResult where
  | allow
  | misconfigured
  | unauthorized
  | forbidden
deriving Repr, DecidableEq

/-- The decision logic of `APIKeyMiddleware.dispatch` (`security.py`
lines 49-105): excluded path → pass; unconfigured or blank secret → 500;
falsy credential → 401; trimmed mismatch → 403; else pass. -/
def apiKeyDecision (exclude_paths : List String) (s : Settings)
    (path : String) (hs : List (String × String)) : AuthResult :=
  if exclude_paths.contains path then .allow
  else if s.API_KEY == "" || pyStrip s.API_KEY == "" then .misconfigured
  else
    let api_key := findApiKey s hs
    if !truthy api_key then .unauthorized
    else if !(pyStrip (api_key.getD "") == pyStrip s.API_KEY) then .forbidden
    else .allow

/-- The credential the authenticator compares, with Python falsiness
normalised away: `none` exactly when the code answers 401. -/
def suppliedKey (s : Settings) (hs : List (String × String)) : Option String :=
  match findApiKey s hs with
  | none => none
  | some v => if v == "" then none else some v

/-- The authenticator's contract as the specification words it (§4.2):
exact-match exclusion, blank-secret misconfiguration, missing credential,
trimmed comparison.  The credential lookup is shared with the code
(`suppliedKey`); the cascade is the specification's. -/
def authenticateSpec (exclude_paths : List String) (s : Settings)
    (path : String) (hs : List (String × String)) : AuthResult :=
  if path ∈ exclude_paths then .allow
  else if pyStrip s.API_KEY = "" then .misconfigured
  else
    match suppliedKey s hs with
    | none => .unauthorized
    | some v => if pyStrip v = pyStrip s.API_KEY then .allow else .forbidden

/-! ## Pipeline layers -/

/-- `APIKeyMiddleware.dispatch` as a layer: pass the inner result through on
`allow`, otherwise return the short-circuit `JSONResponse` of
`security.py` lines 61-64, 91-95, 100-103 (the inner chain is skipped). -/
def apiKeyLayer (exclude_paths : List String) (s : Settings) (req : Request)
    (inner : Except Exc Response) : Except Exc Response :=
  match apiKeyDecision exclude_paths s req.path req.headers with
  | .allow => inner
  | .misconfigured => .ok { status := 500, headers := [] }
  | .unauthorized => .ok { status := 401, headers := [("WWW-Authenticate", "ApiKey")] }
  | .forbidden => .ok { status := 403, headers := [] }

/-- `LoggingMiddleware.dispatch` (`logging.py` lines 15-40): on a normal inner
response, log completion and attach `X-Process-Time` (the boolean records
that the completion log ran); there is no `try`/`except`, so an exception
from the inner chain propagates unchanged and nothing is logged or attached. -/
def loggingLayer (process_time : ℤ) (inner : Except Exc Response) :
    Except Exc Response × Bool :=
  match inner with
  | .ok r =>
    (.ok { r with headers := hset r.headers "X-Process-Time" (toString process_time) },
     true)
  | .error e => (.error e, false)

/-- Modelled from the spec: the CORS middleware is an external collaborator
("CORS policy (external, not detailed)", §2); for the requests considered
here it passes results through unchanged. -/
def corsLayer (inner : Except Exc Response) : Except Exc Response := inner

/-- The header block of `rate_limit.py` lines 110-113. -/
def addRateLimitHeaders (s : Settings) (rm rh : ℤ) (r : Response) : Response :=
  let hs := hset r.headers "X-RateLimit-Limit-Minute" (toString s.RATE_LIMIT_PER_MINUTE)
  let hs := hset hs "X-RateLimit-Remaining-Minute" (toString rm)
  let hs := hset hs "X-RateLimit-Limit-Hour" (toString s.RATE_LIMIT_PER_HOUR)
  let hs := hset hs "X-RateLimit-Remaining-Hour" (toString rh)
  { r with headers := hs }

/-- The detail string of the two `HTTPException`s of `rate_limit.py`. -/
def rejectDetail (s : Settings) : Scope → String
  | .minute => "Rate limit exceeded. Maximum " ++ toString s.RATE_LIMIT_PER_MINUTE
      ++ " requests per minute."
  | .hour => "Rate limit exceeded. Maximum " ++ toString s.RATE_LIMIT_PER_HOUR
      ++ " requests per hour."

/-- `RateLimitMiddleware.dispatch` as a layer around an inner result: bypass
returns the inner result untouched; a rejection raises `HTTPException` (the
inner chain is never invoked); an admission decorates a normal inner
response with the four quota headers and lets an inner exception through. -/
def rateLimitLayer (s : Settings) (st : RateLimitState) (path client_ip : String)
    (current_time : ℤ) (inner : Except Exc Response) :
    Except Exc Response × RateLimitState :=
  match rateLimitDispatch s st path client_ip current_time with
  | (.bypass, st') => (inner, st')
  | (.reject ra sc, st') =>
    (.error (.http 429 (rejectDetail s sc) [("Retry-After", toString ra)]), st')
  | (.allow rm rh, st') =>
    match inner with
    | .ok r => (.ok (addRateLimitHeaders s rm rh r), st')
    | .error e => (.error e, st')

/-- `SecurityHeadersMiddleware.dispatch` response decoration (`security.py`
lines 19-28): five fixed headers, then drop any `server` header. -/
def applySecurityHeaders (r : Response) : Response :=
  let hs := hset r.headers "X-Content-Type-Options" "nosniff"
  let hs := hset hs "X-Frame-Options" "DENY"
  let hs := hset hs "X-XSS-Protection" "1; mode=block"
  let hs := hset hs "Strict-Transport-Security" "max-age=31536000; includeSubDomains"
  let hs := hset hs "Referrer-Policy" "strict-origin-when-cross-origin"
  let hs := if hs.any (fun p => pyLower p.1 == "server") then hdel hs "server" else hs
  { r with headers := hs }

/-- `SecurityHeadersMiddleware.dispatch` as a layer: it decorates a normal
response; it has no `try`/`except`, so an exception from `call_next`
propagates and the header block is never reached. -/
def securityHeadersLayer (inner : Except Exc Response) : Except Exc Response :=
  match inner with
  | .ok r => .ok (applySecurityHeaders r)
  | .error e => .error e

/-- `RateLimitMiddleware._get_client_ip` (`rate_limit.py` lines 50-61). -/
def getClientIp (req : Request) : String :=
  let forwarded := headersGet req.headers "X-Forwarded-For"
  if truthy forwarded then pyStrip (((forwarded.getD "").splitOn ",").headD "")
  else
    let real_ip := headersGet req.headers "X-Real-IP"
    if truthy real_ip then real_ip.getD ""
    else
      match req.clientHost with
      | some h => h
      | none => "unknown"

/-- The chain inside the rate limiter: CORS → Request Logger → API Key
Authenticator → route handler, per the `add_middleware` order of
`app/main.py` lines 77-92.  Returns the result and whether the logger's
completion action ran. -/
def innerChain (s : Settings) (req : Request) (process_time : ℤ)
    (handler : Request → Except Exc Response) : Except Exc Response × Bool :=
  loggingLayer process_time (corsLayer (apiKeyLayer mainExcludePaths s req (handler req)))

/-- The full pipeline of `app/main.py`, outermost to innermost:
Security Headers → Rate Limiter → CORS → Request Logger → API Key
Authenticator → route handler.  Returns the outgoing result, the rate
limiter state, and whether the logger's completion action ran (on a
rate-limit rejection the inner chain, logger included, never runs). -/
def pipeline (s : Settings) (st : RateLimitState) (req : Request)
    (current_time process_time : ℤ) (handler : Request → Except Exc Response) :
    Except Exc Response × RateLimitState × Bool :=
  match rateLimitDispatch s st req.path (getClientIp req) current_time with
  | (.reject ra sc, st') =>
    (securityHeadersLayer
      (.error (.http 429 (rejectDetail s sc) [("Retry-After", toString ra)])),
     st', false)
  | (.bypass, st') =>
    let inner := innerChain s req process_time handler
    (securityHeadersLayer inner.1, st', inner.2)
  | (.allow rm rh, st') =>
    let inner := innerChain s req process_time handler
    match inner.1 with
    | .ok r => (securityHeadersLayer (.ok (addRateLimitHeaders s rm rh r)), st', inner.2)
    | .error e => (securityHeadersLayer (.error e), st', inner.2)

/-- The headers visible on a pipeline outcome: those of the response, or
those attached to an escaping `HTTPException`. -/
def resultHeaders : Except Exc Response → List (String × String)
  | .ok r => r.headers
  | .error (.http _ _ hs) => hs
  | .error (.other _) => []

/-! ## Concrete fixtures used by witnesses -/

/-- A configuration with the default limits of `app/config.py`. -/
def sampleSettings : Settings :=
  { API_KEY := "abc123", API_KEY_HEADER := "X-API-Key", RATE_LIMIT_ENABLED := true,
    RATE_LIMIT_PER_MINUTE := 60, RATE_LIMIT_PER_HOUR := 1000 }

/-- A configuration whose limits are already exhausted. -/
def zeroLimitSettings : Settings :=
  { API_KEY := "abc123", API_KEY_HEADER := "X-API-Key", RATE_LIMIT_ENABLED := true,
    RATE_LIMIT_PER_MINUTE := 0, RATE_LIMIT_PER_HOUR := 0 }

/-- A configuration with rate limiting disabled. -/
def disabledSettings : Settings :=
  { API_KEY := "abc123", API_KEY_HEADER := "X-API-Key", RATE_LIMIT_ENABLED := false,
    RATE_LIMIT_PER_MINUTE := 60, RATE_LIMIT_PER_HOUR := 1000 }

/-- The limiter state at process start. -/
def emptyState : RateLimitState :=
  { requests_per_minute := [], requests_per_hour := [], last_cleanup := 0 }

/-- A limiter state with one fresh and one stale client, due for a sweep. -/
def sweepState : RateLimitState :=
  { requests_per_minute := [("1.2.3.4", [10, 350]), ("5.6.7.8", [-4000])],
    requests_per_hour := [("1.2.3.4", [10, 350]), ("5.6.7.8", [-4000])],
    last_cleanup := 0 }

/-! ## Association-list lemmas -/

theorem alContains_iff_mem {m : List (String × List ℤ)} {k : String} :
    alContains m k = true ↔ k ∈ m.map Prod.fst := by
  induction m with
  | nil => simp [alContains]
  | cons p m ih =>
    simp only [alContains, Bool.or_eq_true, beq_iff_eq, ih, List.map_cons,
      List.mem_cons]
    constructor
    · rintro (h | h)
      exacts [Or.inl h.symm, Or.inr h]
    · rintro (h | h)
      exacts [Or.inl h.symm, Or.inr h]

theorem alGet_eq_nil_of_not_contains {m : List (String × List ℤ)} {k : String}
    (h : alContains m k = false) : alGet m k = [] := by
  induction m with
  | nil => rfl
  | cons p m ih =>
    simp only [alContains, Bool.or_eq_false_iff] at h
    simp [alGet, h.1, ih h.2]

theorem alGet_alEnsure (m : List (String × List ℤ)) (k k' : String) :
    alGet (alEnsure m k) k' = alGet m k' := by
  induction m with
  | nil => by_cases h : k == k' <;> simp [alEnsure, alGet, h]
  | cons p m ih =>
    by_cases h : p.1 == k <;> simp [alEnsure, alGet, h, ih]

theorem alEnsure_keys (m : List (String × List ℤ)) (k : String) :
    (alEnsure m k).map Prod.fst =
      if alContains m k then m.map Prod.fst else m.map Prod.fst ++ [k] := by
  induction m with
  | nil => simp [alEnsure, alContains]
  | cons p m ih =>
    by_cases h : p.1 == k
    · simp [alEnsure, alContains, h]
    · simp only [alEnsure, if_neg h, alContains, h, Bool.false_or,
        List.map_cons, ih]
      by_cases hc : alContains m k <;> simp [hc, ih]

theorem alSet_keys (m : List (String × List ℤ)) (k : String) (v : List ℤ) :
    (alSet m k v).map Prod.fst =
      if alContains m k then m.map Prod.fst else m.map Prod.fst ++ [k] := by
  induction m with
  | nil => simp [alSet, alContains]
  | cons p m ih =>
    by_cases h : p.1 == k
    · have h' : p.1 = k := by simpa using h
      simp [alSet, alContains, h, h']
    · simp only [alSet, if_neg h, alContains, h, Bool.false_or,
        List.map_cons, ih]
      by_cases hc : alContains m k <;> simp [hc, ih]

theorem alGet_alSet_self (m : List (String × List ℤ)) (k : String) (v : List ℤ) :
    alGet (alSet m k v) k = v := by
  induction m with
  | nil => simp [alSet, alGet]
  | cons p m ih =>
    by_cases h : p.1 == k <;> simp [alSet, alGet, h, ih]

theorem alGet_alSet_ne (m : List (String × List ℤ)) (k k' : String) (v : List ℤ)
    (h : ¬(k == k') = true) : alGet (alSet m k v) k' = alGet m k' := by
  induction m with
  | nil => simp [alSet, alGet, h]
  | cons p m ih =>
    by_cases hp : p.1 == k
    · have hp' : ¬(p.1 == k') = true := by
        simp only [beq_iff_eq] at hp h ⊢
        simpa [hp] using h
      simp [alSet, alGet, hp, hp', h]
    · simp [alSet, alGet, hp, ih]

theorem alNodupKeys_alEnsure {m : List (String × List ℤ)} (k : String)
    (h : alNodupKeys m) : alNodupKeys (alEnsure m k) := by
  unfold alNodupKeys at h ⊢
  rw [alEnsure_keys]
  by_cases hc : alContains m k
  · simpa [hc] using h
  · have hk : k ∉ m.map Prod.fst := fun hmem =>
      hc (alContains_iff_mem.mpr hmem)
    rw [if_neg hc]
    rw [List.nodup_append]
    refine ⟨h, List.nodup_singleton _, ?_⟩
    intro a ha hak
    rw [List.mem_singleton] at hak
    exact hk (hak ▸ ha)

theorem alNodupKeys_alSet {m : List (String × List ℤ)} (k : String) (v : List ℤ)
    (h : alNodupKeys m) : alNodupKeys (alSet m k v) := by
  unfold alNodupKeys at h ⊢
  rw [alSet_keys]
  by_cases hc : alContains m k
  · simpa [hc] using h
  · have hk : k ∉ m.map Prod.fst := fun hmem =>
      hc (alContains_iff_mem.mpr hmem)
    rw [if_neg hc]
    rw [List.nodup_append]
    refine ⟨h, List.nodup_singleton _, ?_⟩
    intro a ha hak
    rw [List.mem_singleton] at hak
    exact hk (hak ▸ ha)

theorem alGet_eq_nil_of_not_mem_keys {m : List (String × List ℤ)} {k : String}
    (h : k ∉ m.map Prod.fst) : alGet m k = [] := by
  apply alGet_eq_nil_of_not_contains
  cases hc : alContains m k
  · rfl
  · exact absurd (alContains_iff_mem.mp hc) h

theorem alSweep_keys_sublist (cutoff : ℤ) (m : List (String × List ℤ)) :
    List.Sublist ((alSweep cutoff m).map Prod.fst) (m.map Prod.fst) := by
  have h1 : List.Sublist ((alSweep cutoff m).map Prod.fst)
      ((m.map (fun p => (p.1, p.2.filter (fun ts => ts > cutoff)))).map Prod.fst) :=
    List.Sublist.map _ (List.filter_sublist _)
  simpa [List.map_map, Function.comp_def] using h1

theorem alNodupKeys_alSweep {m : List (String × List ℤ)} (cutoff : ℤ)
    (hnd : alNodupKeys m) : alNodupKeys (alSweep cutoff m) :=
  hnd.sublist (alSweep_keys_sublist cutoff m)

theorem alGet_alSweep {m : List (String × List ℤ)} (cutoff : ℤ) (k : String)
    (hnd : alNodupKeys m) :
    alGet (alSweep cutoff m) k = (alGet m k).filter (fun ts => ts > cutoff) := by
  induction m with
  | nil => simp [alSweep, alGet]
  | cons p m ih =>
    simp only [alNodupKeys, List.map_cons, List.nodup_cons] at hnd
    have ihm := ih hnd.2
    by_cases hp : p.1 == k
    · have hpk : p.1 = k := by simpa using hp
      have hk : k ∉ m.map Prod.fst := hpk ▸ hnd.1
      have hsw : k ∉ (alSweep cutoff m).map Prod.fst := fun hmem =>
        hk ((alSweep_keys_sublist cutoff m).subset hmem)
      by_cases hemp : (p.2.filter (fun ts => ts > cutoff)).isEmpty
      · have : alSweep cutoff (p :: m) = alSweep cutoff m := by
          simp [alSweep, hemp]
        rw [this, alGet_eq_nil_of_not_mem_keys hsw]
        have : p.2.filter (fun ts => ts > cutoff) = [] :=
          List.isEmpty_iff.mp hemp
        simp [alGet, hp, this]
      · have : alSweep cutoff (p :: m) =
            (p.1, p.2.filter (fun ts => ts > cutoff)) :: alSweep cutoff m := by
          simp [alSweep, hemp]
        rw [this]
        simp [alGet, hp]
    · by_cases hemp : (p.2.filter (fun ts => ts > cutoff)).isEmpty
      · have : alSweep cutoff (p :: m) = alSweep cutoff m := by
          simp [alSweep, hemp]
        rw [this, ihm]
        simp [alGet, hp]
      · have : alSweep cutoff (p :: m) =
            (p.1, p.2.filter (fun ts => ts > cutoff)) :: alSweep cutoff m := by
          simp [alSweep, hemp]
        rw [this]
        simp [alGet, hp, ihm]

theorem alContains_alSweep {m : List (String × List ℤ)} (cutoff : ℤ) (k : String)
    (hnd : alNodupKeys m) :
    alContains (alSweep cutoff m) k =
      !((alGet m k).filter (fun ts => ts > cutoff)).isEmpty := by
  induction m with
  | nil => simp [alSweep, alContains, alGet]
  | cons p m ih =>
    simp only [alNodupKeys, List.map_cons, List.nodup_cons] at hnd
    have ihm := ih hnd.2
    by_cases hp : p.1 == k
    · have hpk : p.1 = k := by simpa using hp
      have hk : k ∉ m.map Prod.fst := hpk ▸ hnd.1
      have hsw : k ∉ (alSweep cutoff m).map Prod.fst := fun hmem =>
        hk ((alSweep_keys_sublist cutoff m).subset hmem)
      have hswc : alContains (alSweep cutoff m) k = false := by
        cases hc : alContains (alSweep cutoff m) k
        · rfl
        · exact absurd (alContains_iff_mem.mp hc) hsw
      by_cases hemp : (p.2.filter (fun ts => ts > cutoff)).isEmpty
      · have h1 : alSweep cutoff (p :: m) = alSweep cutoff m := by
          simp [alSweep, hemp]
        rw [h1, hswc]
        simp only [alGet, hp, if_true]
        rw [hemp]
        rfl
      · have h1 : alSweep cutoff (p :: m) =
            (p.1, p.2.filter (fun ts => ts > cutoff)) :: alSweep cutoff m := by
          simp [alSweep, hemp]
        rw [h1]
        simp only [alContains, hp, Bool.true_or, alGet, if_true]
        have hemp2 : (p.2.filter (fun ts => ts > cutoff)).isEmpty = false := by
          simpa using hemp
        rw [hemp2]
        rfl
    · by_cases hemp : (p.2.filter (fun ts => ts > cutoff)).isEmpty
      · have h1 : alSweep cutoff (p :: m) = alSweep cutoff m := by
          simp [alSweep, hemp]
        rw [h1, ihm]
        simp [alGet, hp]
      · have h1 : alSweep cutoff (p :: m) =
            (p.1, p.2.filter (fun ts => ts > cutoff)) :: alSweep cutoff m := by
          simp [alSweep, hemp]
        rw [h1]
        simp only [alContains, hp, Bool.false_or, alGet, if_false, ihm]
        simp [alGet, hp]

/-! ## Cleanup lemmas -/

theorem cleanupOldEntries_noop {st : RateLimitState} {t : ℤ}
    (h : t - st.last_cleanup < 300) : cleanupOldEntries st t = st := by
  simp [cleanupOldEntries, h]

theorem cleanup_nodup_minute {st : RateLimitState} {t : ℤ}
    (hnd : alNodupKeys st.requests_per_minute) :
    alNodupKeys (cleanupOldEntries st t).requests_per_minute := by
  unfold cleanupOldEntries
  by_cases hcl : t - st.last_cleanup < 300
  · simpa [hcl] using hnd
  · simp only [hcl, if_false]
    exact alNodupKeys_alSweep _ hnd

theorem cleanup_nodup_hour {st : RateLimitState} {t : ℤ}
    (hnd : alNodupKeys st.requests_per_hour) :
    alNodupKeys (cleanupOldEntries st t).requests_per_hour := by
  unfold cleanupOldEntries
  by_cases hcl : t - st.last_cleanup < 300
  · simpa [hcl] using hnd
  · simp only [hcl, if_false]
    exact alNodupKeys_alSweep _ hnd

theorem alGet_cleanup_minute {st : RateLimitState} {t : ℤ} {c : String}
    (hnd : alNodupKeys st.requests_per_minute)
    (h : ∀ x ∈ alGet st.requests_per_minute c, x > t - 60) :
    alGet (cleanupOldEntries st t).requests_per_minute c =
      alGet st.requests_per_minute c := by
  unfold cleanupOldEntries
  by_cases hcl : t - st.last_cleanup < 300
  · simp [hcl]
  · simp only [hcl, if_false]
    rw [alGet_alSweep _ _ hnd]
    exact List.filter_eq_self.mpr (fun a ha => by simpa using h a ha)

theorem alGet_cleanup_hour {st : RateLimitState} {t : ℤ} {c : String}
    (hnd : alNodupKeys st.requests_per_hour)
    (h : ∀ x ∈ alGet st.requests_per_hour c, x > t - 3600) :
    alGet (cleanupOldEntries st t).requests_per_hour c =
      alGet st.requests_per_hour c := by
  unfold cleanupOldEntries
  by_cases hcl : t - st.last_cleanup < 300
  · simp [hcl]
  · simp only [hcl, if_false]
    rw [alGet_alSweep _ _ hnd]
    exact List.filter_eq_self.mpr (fun a ha => by simpa using h a ha)

theorem alGet_cleanup_minute_sublist {st : RateLimitState} {t : ℤ} {c : String}
    (hnd : alNodupKeys st.requests_per_minute) :
    List.Sublist (alGet (cleanupOldEntries st t).requests_per_minute c)
      (alGet st.requests_per_minute c) := by
  unfold cleanupOldEntries
  by_cases hcl : t - st.last_cleanup < 300
  · simp [hcl]
  · simp only [hcl, if_false]
    rw [alGet_alSweep _ _ hnd]
    exact List.filter_sublist _

theorem alGet_cleanup_hour_sublist {st : RateLimitState} {t : ℤ} {c : String}
    (hnd : alNodupKeys st.requests_per_hour) :
    List.Sublist (alGet (cleanupOldEntries st t).requests_per_hour c)
      (alGet st.requests_per_hour c) := by
  unfold cleanupOldEntries
  by_cases hcl : t - st.last_cleanup < 300
  · simp [hcl]
  · simp only [hcl, if_false]
    rw [alGet_alSweep _ _ hnd]
    exact List.filter_sublist _

/-! ## Dispatch characterization -/

section DispatchLemmas

variable {s : Settings} {st : RateLimitState} {path c : String} {t : ℤ}

theorem dispatch_bypass_path (hpath : rateLimitBypassPaths.contains path = true) :
    rateLimitDispatch s st path c t = (.bypass, st) := by
  have hmem : path ∈ rateLimitBypassPaths := by simpa using hpath
  simp [rateLimitDispatch, hmem]

theorem dispatch_disabled (hen : s.RATE_LIMIT_ENABLED = false) :
    rateLimitDispatch s st path c t = (.bypass, st) := by
  by_cases hmem : path ∈ rateLimitBypassPaths <;> simp [rateLimitDispatch, hmem, hen]

theorem dispatch_reject_minute
    (hpath : rateLimitBypassPaths.contains path = false)
    (hen : s.RATE_LIMIT_ENABLED = true)
    (hm : s.RATE_LIMIT_PER_MINUTE ≤
      ((alGet (cleanupOldEntries st t).requests_per_minute c).filter
        (fun ts => ts > t - 60)).length) :
    rateLimitDispatch s st path c t =
      (.reject 60 .minute,
       { requests_per_minute :=
           alEnsure (cleanupOldEntries st t).requests_per_minute c,
         requests_per_hour := (cleanupOldEntries st t).requests_per_hour,
         last_cleanup := (cleanupOldEntries st t).last_cleanup }) := by
  have hmem : path ∉ rateLimitBypassPaths := by simpa using hpath
  simp [rateLimitDispatch, hmem, hen, hm]

theorem dispatch_reject_hour
    (hpath : rateLimitBypassPaths.contains path = false)
    (hen : s.RATE_LIMIT_ENABLED = true)
    (hm : ¬ s.RATE_LIMIT_PER_MINUTE ≤
      ((alGet (cleanupOldEntries st t).requests_per_minute c).filter
        (fun ts => ts > t - 60)).length)
    (hh : s.RATE_LIMIT_PER_HOUR ≤
      ((alGet (cleanupOldEntries st t).requests_per_hour c).filter
        (fun ts => ts > t - 3600)).length) :
    rateLimitDispatch s st path c t =
      (.reject 3600 .hour,
       { requests_per_minute :=
           alEnsure (cleanupOldEntries st t).requests_per_minute c,
         requests_per_hour :=
           alEnsure (cleanupOldEntries st t).requests_per_hour c,
         last_cleanup := (cleanupOldEntries st t).last_cleanup }) := by
  have hmem : path ∉ rateLimitBypassPaths := by simpa using hpath
  simp [rateLimitDispatch, hmem, hen, hm, hh]

theorem dispatch_allow
    (hpath : rateLimitBypassPaths.contains path = false)
    (hen : s.RATE_LIMIT_ENABLED = true)
    (hm : ¬ s.RATE_LIMIT_PER_MINUTE ≤
      ((alGet (cleanupOldEntries st t).requests_per_minute c).filter
        (fun ts => ts > t - 60)).length)
    (hh : ¬ s.RATE_LIMIT_PER_HOUR ≤
      ((alGet (cleanupOldEntries st t).requests_per_hour c).filter
        (fun ts => ts > t - 3600)).length) :
    rateLimitDispatch s st path c t =
      (.allow
        ((s.RATE_LIMIT_PER_MINUTE : ℤ) -
          (((alGet (cleanupOldEntries st t).requests_per_minute c).filter
            (fun ts => ts > t - 60)).length + 1))
        ((s.RATE_LIMIT_PER_HOUR : ℤ) -
          (((alGet (cleanupOldEntries st t).requests_per_hour c).filter
            (fun ts => ts > t - 3600)).length + 1)),
       { requests_per_minute :=
           alSet (alEnsure (cleanupOldEntries st t).requests_per_minute c) c
             (((alGet (cleanupOldEntries st t).requests_per_minute c).filter
               (fun ts => ts > t - 60)) ++ [t]),
         requests_per_hour :=
           alSet (alEnsure (cleanupOldEntries st t).requests_per_hour c) c
             (((alGet (cleanupOldEntries st t).requests_per_hour c).filter
               (fun ts => ts > t - 3600)) ++ [t]),
         last_cleanup := (cleanupOldEntries st t).last_cleanup }) := by
  have hmem : path ∉ rateLimitBypassPaths := by simpa using hpath
  simp [rateLimitDispatch, hmem, hen, hm, hh]

end DispatchLemmas


/-! ## Claims -/

/-- C1: For every call of the rate limiter with rate limiting enabled and a
non-bypassed path, the decision equals the specification's admission contract
`admitSpec` evaluated on the client's two stored sequences (after the
opportunistic sweep): both sequences pruned to `> now - window`, the minute
check (Retry-After 60) performed before the hour check (Retry-After 3600),
and on admission `now` appended to both stored sequences. -/
theorem C1_admit_follows_spec (s : Settings) (st : RateLimitState)
    (path c : String) (t : ℤ)
    (hpath : rateLimitBypassPaths.contains path = false)
    (hen : s.RATE_LIMIT_ENABLED = true) :
    (rateLimitDispatch s st path c t).1 =
      (admitSpec s.RATE_LIMIT_PER_MINUTE s.RATE_LIMIT_PER_HOUR
        (alGet (cleanupOldEntries st t).requests_per_minute c)
        (alGet (cleanupOldEntries st t).requests_per_hour c) t).1 ∧
    (isAllow (rateLimitDispatch s st path c t).1 = true →
      alGet (rateLimitDispatch s st path c t).2.requests_per_minute c =
        (admitSpec s.RATE_LIMIT_PER_MINUTE s.RATE_LIMIT_PER_HOUR
          (alGet (cleanupOldEntries st t).requests_per_minute c)
          (alGet (cleanupOldEntries st t).requests_per_hour c) t).2.1 ∧
      alGet (rateLimitDispatch s st path c t).2.requests_per_hour c =
        (admitSpec s.RATE_LIMIT_PER_MINUTE s.RATE_LIMIT_PER_HOUR
          (alGet (cleanupOldEntries st t).requests_per_minute c)
          (alGet (cleanupOldEntries st t).requests_per_hour c) t).2.2) := by
  by_cases hm : s.RATE_LIMIT_PER_MINUTE ≤
      ((alGet (cleanupOldEntries st t).requests_per_minute c).filter
        (fun ts => ts > t - 60)).length
  · rw [dispatch_reject_minute hpath hen hm]
    constructor
    · simp [admitSpec, hm]
    · intro hal
      simp [isAllow] at hal
  · by_cases hh : s.RATE_LIMIT_PER_HOUR ≤
        ((alGet (cleanupOldEntries st t).requests_per_hour c).filter
          (fun ts => ts > t - 3600)).length
    · rw [dispatch_reject_hour hpath hen hm hh]
      constructor
      · simp [admitSpec, hm, hh]
      · intro hal
        simp [isAllow] at hal
    · rw [dispatch_allow hpath hen hm hh]
      refine ⟨?_, fun _ => ⟨?_, ?_⟩⟩
      · simp only [admitSpec, hm, hh, if_false]
        have h1 : (0:ℤ) ≤ (s.RATE_LIMIT_PER_MINUTE : ℤ) -
            (((alGet (cleanupOldEntries st t).requests_per_minute c).filter
              (fun ts => ts > t - 60)).length + 1) := by
          omega
        have h2 : (0:ℤ) ≤ (s.RATE_LIMIT_PER_HOUR : ℤ) -
            (((alGet (cleanupOldEntries st t).requests_per_hour c).filter
              (fun ts => ts > t - 3600)).length + 1) := by
          omega
        rw [max_eq_right h1, max_eq_right h2]
      · simp only [admitSpec, hm, hh, if_false]
        rw [alGet_alSet_self]
      · simp only [admitSpec, hm, hh, if_false]
        rw [alGet_alSet_self]

/-- C5: For every request whose path is one of `/`, `/docs`, `/redoc`,
`/openapi.json`, `/api/v1/health`, both the rate limiter and the API-key
authenticator pass the request through, for every configuration, every
limiter state, every client, every time and every header list. -/
theorem C5_excluded_paths_bypass_both (p : String)
    (hp : p ∈ ["/", "/docs", "/redoc", "/openapi.json", "/api/v1/health"]) :
    ∀ (s : Settings) (st : RateLimitState) (c : String) (t : ℤ)
      (hs : List (String × String)),
      rateLimitDispatch s st p c t = (.bypass, st) ∧
      apiKeyDecision mainExcludePaths s p hs = .allow := by
  intro s st c t hs
  have hcon : rateLimitBypassPaths.contains p = true := by
    fin_cases hp <;> decide
  have hexc : p ∈ mainExcludePaths := by
    fin_cases hp <;> decide
  exact ⟨dispatch_bypass_path hcon, by simp [apiKeyDecision, hexc]⟩

/-- C7: Whenever the rate limiter rejects, the current timestamp is not
appended to any client's window sequence: every stored sequence of the
post state is a sublist of the corresponding pre-state sequence, and a
timestamp absent before is still absent after. -/
theorem C7_reject_records_nothing (s : Settings) (st : RateLimitState)
    (path c : String) (t : ℤ) (ra : Nat) (sc : Scope)
    (hndm : alNodupKeys st.requests_per_minute)
    (hndh : alNodupKeys st.requests_per_hour)
    (hrej : (rateLimitDispatch s st path c t).1 = .reject ra sc) :
    ∀ c' : String,
      List.Sublist (alGet (rateLimitDispatch s st path c t).2.requests_per_minute c')
        (alGet st.requests_per_minute c') ∧
      List.Sublist (alGet (rateLimitDispatch s st path c t).2.requests_per_hour c')
        (alGet st.requests_per_hour c') ∧
      (t ∉ alGet st.requests_per_minute c' →
        t ∉ alGet (rateLimitDispatch s st path c t).2.requests_per_minute c') ∧
      (t ∉ alGet st.requests_per_hour c' →
        t ∉ alGet (rateLimitDispatch s st path c t).2.requests_per_hour c') := by
  intro c'
  by_cases hbp : rateLimitBypassPaths.contains path
  · rw [dispatch_bypass_path hbp] at hrej ⊢
    simp at hrej
  · by_cases hen : s.RATE_LIMIT_ENABLED
    · have hbp' : rateLimitBypassPaths.contains path = false := by
        simpa using hbp
      by_cases hm : s.RATE_LIMIT_PER_MINUTE ≤
          ((alGet (cleanupOldEntries st t).requests_per_minute c).filter
            (fun ts => ts > t - 60)).length
      · rw [dispatch_reject_minute hbp' hen hm]
        have h1 : List.Sublist
            (alGet (cleanupOldEntries st t).requests_per_minute c')
            (alGet st.requests_per_minute c') :=
          alGet_cleanup_minute_sublist hndm
        have h2 : List.Sublist
            (alGet (cleanupOldEntries st t).requests_per_hour c')
            (alGet st.requests_per_hour c') :=
          alGet_cleanup_hour_sublist hndh
        refine ⟨?_, ?_, ?_, ?_⟩
        · simpa [alGet_alEnsure] using h1
        · simpa using h2
        · intro hni hmem
          simp only [alGet_alEnsure] at hmem
          exact hni (h1.subset hmem)
        · intro hni hmem
          exact hni (h2.subset hmem)
      · by_cases hh : s.RATE_LIMIT_PER_HOUR ≤
            ((alGet (cleanupOldEntries st t).requests_per_hour c).filter
              (fun ts => ts > t - 3600)).length
        · rw [dispatch_reject_hour hbp' hen hm hh]
          have h1 : List.Sublist
              (alGet (cleanupOldEntries st t).requests_per_minute c')
              (alGet st.requests_per_minute c') :=
            alGet_cleanup_minute_sublist hndm
          have h2 : List.Sublist
              (alGet (cleanupOldEntries st t).requests_per_hour c')
              (alGet st.requests_per_hour c') :=
            alGet_cleanup_hour_sublist hndh
          refine ⟨?_, ?_, ?_, ?_⟩
          · simpa [alGet_alEnsure] using h1
          · simpa [alGet_alEnsure] using h2
          · intro hni hmem
            simp only [alGet_alEnsure] at hmem
            exact hni (h1.subset hmem)
          · intro hni hmem
            simp only [alGet_alEnsure] at hmem
            exact hni (h2.subset hmem)
        · rw [dispatch_allow hbp' hen hm hh] at hrej
          simp at hrej
    · have hen' : s.RATE_LIMIT_ENABLED = false := by simpa using hen
      rw [dispatch_disabled hen'] at hrej
      simp at hrej

/-- C9: The bulk sweep is a no-op while less than 300 seconds have passed
since the last sweep; when it runs it records the sweep time, prunes every
stored list to its window, keeps a client's entry in a window map exactly
when the pruned list is nonempty, and retains a client somewhere exactly
when at least one of its two pruned sequences is nonempty — equivalently, it
deletes exactly the clients whose both pruned sequences are empty. -/
theorem C9_cleanup_sweep (st : RateLimitState) (t : ℤ) :
    (t - st.last_cleanup < 300 → cleanupOldEntries st t = st) ∧
    (¬ t - st.last_cleanup < 300 →
      alNodupKeys st.requests_per_minute → alNodupKeys st.requests_per_hour →
      (cleanupOldEntries st t).last_cleanup = t ∧
      ∀ c : String,
        alGet (cleanupOldEntries st t).requests_per_minute c =
          (alGet st.requests_per_minute c).filter (fun ts => ts > t - 60) ∧
        alGet (cleanupOldEntries st t).requests_per_hour c =
          (alGet st.requests_per_hour c).filter (fun ts => ts > t - 3600) ∧
        (alContains (cleanupOldEntries st t).requests_per_minute c = true ↔
          (alGet st.requests_per_minute c).filter (fun ts => ts > t - 60) ≠ []) ∧
        (alContains (cleanupOldEntries st t).requests_per_hour c = true ↔
          (alGet st.requests_per_hour c).filter (fun ts => ts > t - 3600) ≠ []) ∧
        ((alContains (cleanupOldEntries st t).requests_per_minute c ||
            alContains (cleanupOldEntries st t).requests_per_hour c) = false ↔
          ((alGet st.requests_per_minute c).filter (fun ts => ts > t - 60) = [] ∧
           (alGet st.requests_per_hour c).filter (fun ts => ts > t - 3600) = []))) := by
  constructor
  · exact cleanupOldEntries_noop
  · intro hcl hndm hndh
    have hmin : (cleanupOldEntries st t).requests_per_minute =
        alSweep (t - 60) st.requests_per_minute := by
      simp [cleanupOldEntries, hcl]
    have hhour : (cleanupOldEntries st t).requests_per_hour =
        alSweep (t - 3600) st.requests_per_hour := by
      simp [cleanupOldEntries, hcl]
    have hlast : (cleanupOldEntries st t).last_cleanup = t := by
      simp [cleanupOldEntries, hcl]
    refine ⟨hlast, fun c => ?_⟩
    have e1 := alGet_alSweep (t - 60) c hndm
    have e2 := alGet_alSweep (t - 3600) c hndh
    have e3 := alContains_alSweep (t - 60) c hndm
    have e4 := alContains_alSweep (t - 3600) c hndh
    rw [hmin, hhour]
    have c1 : alContains (alSweep (t - 60) st.requests_per_minute) c = true ↔
        (alGet st.requests_per_minute c).filter (fun ts => ts > t - 60) ≠ [] := by
      rw [e3]
      cases h : (alGet st.requests_per_minute c).filter (fun ts => ts > t - 60) <;>
        simp [h]
    have c2 : alContains (alSweep (t - 3600) st.requests_per_hour) c = true ↔
        (alGet st.requests_per_hour c).filter (fun ts => ts > t - 3600) ≠ [] := by
      rw [e4]
      cases h : (alGet st.requests_per_hour c).filter (fun ts => ts > t - 3600) <;>
        simp [h]
    refine ⟨e1, e2, c1, c2, ?_⟩
    constructor
    · intro hor
      rw [Bool.or_eq_false_iff] at hor
      constructor
      · by_contra hne
        have := c1.mpr hne
        rw [this] at hor
        exact absurd hor.1 (by simp)
      · by_contra hne
        have := c2.mpr hne
        rw [this] at hor
        exact absurd hor.2 (by simp)
    · intro hand
      rw [Bool.or_eq_false_iff]
      constructor
      · cases hb : alContains (alSweep (t - 60) st.requests_per_minute) c
        · rfl
        · exact absurd hand.1 (c1.mp hb)
      · cases hb : alContains (alSweep (t - 3600) st.requests_per_hour) c
        · rfl
        · exact absurd hand.2 (c2.mp hb)

/-- C10: For a bypassed path or with rate limiting disabled, the rate
limiter passes the request through with the state unchanged (no entry
created, no timestamp appended, no sweep), and the layer returns the inner
response untouched (no rate-limit headers added). -/
theorem C10_bypass_frame (s : Settings) (st : RateLimitState) (path c : String)
    (t : ℤ)
    (h : rateLimitBypassPaths.contains path = true ∨ s.RATE_LIMIT_ENABLED = false) :
    rateLimitDispatch s st path c t = (.bypass, st) ∧
    ∀ inner : Except Exc Response,
      rateLimitLayer s st path c t inner = (inner, st) := by
  have hd : rateLimitDispatch s st path c t = (.bypass, st) := by
    rcases h with h | h
    · exact dispatch_bypass_path h
    · exact dispatch_disabled h
  exact ⟨hd, fun inner => by simp [rateLimitLayer, hd]⟩

/-- Witness for C1 at a concrete admitted request. -/
theorem C1_witness :
    rateLimitBypassPaths.contains "/api/v1/articles" = false ∧
    sampleSettings.RATE_LIMIT_ENABLED = true ∧
    (rateLimitDispatch sampleSettings emptyState "/api/v1/articles" "1.2.3.4" 0).1 =
      (admitSpec 60 1000
        (alGet (cleanupOldEntries emptyState 0).requests_per_minute "1.2.3.4")
        (alGet (cleanupOldEntries emptyState 0).requests_per_hour "1.2.3.4") 0).1 :=
  ⟨by decide, rfl,
   (C1_admit_follows_spec sampleSettings emptyState "/api/v1/articles" "1.2.3.4" 0
     (by decide) rfl).1⟩

/-- Witness for C5 at the docs path. -/
theorem C5_witness :
    "/docs" ∈ ["/", "/docs", "/redoc", "/openapi.json", "/api/v1/health"] ∧
    (rateLimitDispatch zeroLimitSettings emptyState "/docs" "1.2.3.4" 0 =
      (.bypass, emptyState) ∧
     apiKeyDecision mainExcludePaths zeroLimitSettings "/docs" [] = .allow) :=
  ⟨by decide,
   C5_excluded_paths_bypass_both "/docs" (by decide) zeroLimitSettings emptyState
     "1.2.3.4" 0 []⟩

/-- Witness for C7 at a concrete rejected request. -/
theorem C7_witness :
    (rateLimitDispatch zeroLimitSettings emptyState "/api/v1/articles" "1.2.3.4" 0).1 =
      .reject 60 .minute ∧
    (List.Sublist
      (alGet (rateLimitDispatch zeroLimitSettings emptyState "/api/v1/articles"
        "1.2.3.4" 0).2.requests_per_minute "1.2.3.4")
      (alGet emptyState.requests_per_minute "1.2.3.4") ∧
     List.Sublist
      (alGet (rateLimitDispatch zeroLimitSettings emptyState "/api/v1/articles"
        "1.2.3.4" 0).2.requests_per_hour "1.2.3.4")
      (alGet emptyState.requests_per_hour "1.2.3.4") ∧
     ((0:ℤ) ∉ alGet emptyState.requests_per_minute "1.2.3.4" →
      (0:ℤ) ∉ alGet (rateLimitDispatch zeroLimitSettings emptyState "/api/v1/articles"
        "1.2.3.4" 0).2.requests_per_minute "1.2.3.4") ∧
     ((0:ℤ) ∉ alGet emptyState.requests_per_hour "1.2.3.4" →
      (0:ℤ) ∉ alGet (rateLimitDispatch zeroLimitSettings emptyState "/api/v1/articles"
        "1.2.3.4" 0).2.requests_per_hour "1.2.3.4")) :=
  ⟨by decide,
   C7_reject_records_nothing zeroLimitSettings emptyState "/api/v1/articles" "1.2.3.4"
     0 60 .minute (by simp [alNodupKeys, emptyState]) (by simp [alNodupKeys, emptyState])
     (by decide) "1.2.3.4"⟩

/-- Witness for C9: a sweep at time 400 prunes the fresh client and deletes
the stale one. -/
theorem C9_witness :
    ¬ (400:ℤ) - sweepState.last_cleanup < 300 ∧
    (cleanupOldEntries sweepState 400).last_cleanup = 400 ∧
    alGet (cleanupOldEntries sweepState 400).requests_per_minute "1.2.3.4" =
      (alGet sweepState.requests_per_minute "1.2.3.4").filter
        (fun ts => ts > (400:ℤ) - 60) ∧
    ((alContains (cleanupOldEntries sweepState 400).requests_per_minute "5.6.7.8" ||
      alContains (cleanupOldEntries sweepState 400).requests_per_hour "5.6.7.8") = false ↔
      ((alGet sweepState.requests_per_minute "5.6.7.8").filter
        (fun ts => ts > (400:ℤ) - 60) = [] ∧
       (alGet sweepState.requests_per_hour "5.6.7.8").filter
        (fun ts => ts > (400:ℤ) - 3600) = [])) := by
  have h := (C9_cleanup_sweep sweepState 400).2 (by decide)
    (by simp [alNodupKeys, sweepState]) (by simp [alNodupKeys, sweepState])
  exact ⟨by decide, h.1, (h.2 "1.2.3.4").1, (h.2 "5.6.7.8").2.2.2.2⟩

/-- Witness for C10: a bypassed path leaves state and response untouched. -/
theorem C10_witness :
    (rateLimitBypassPaths.contains "/docs" = true ∨
      sampleSettings.RATE_LIMIT_ENABLED = false) ∧
    rateLimitDispatch sampleSettings emptyState "/docs" "1.2.3.4" 5 =
      (.bypass, emptyState) ∧
    rateLimitLayer sampleSettings emptyState "/docs" "1.2.3.4" 5
      (.ok { status := 200, headers := [] }) =
      (.ok { status := 200, headers := [] }, emptyState) := by
  have h := C10_bypass_frame sampleSettings emptyState "/docs" "1.2.3.4" 5
    (Or.inl (by decide))
  exact ⟨Or.inl (by decide), h.1, h.2 _⟩

/-- C3: For every request, the authenticator's decision equals the
specification's cascade: excluded path (exact match) → pass; blank or empty
secret → 500; no credential found → 401; stripped credential differing from
the stripped secret → 403; otherwise pass through. -/
theorem C3_authenticator_matches_spec (ex : List String) (s : Settings)
    (path : String) (hs : List (String × String)) :
    apiKeyDecision ex s path hs = authenticateSpec ex s path hs := by
  unfold apiKeyDecision authenticateSpec suppliedKey
  by_cases hex : path ∈ ex
  · simp [hex]
  · have hex' : ex.contains path = false := by simpa using hex
    simp only [hex', hex, if_false, Bool.false_eq_true]
    by_cases hb : pyStrip s.API_KEY = ""
    · have h1 : (s.API_KEY == "" || pyStrip s.API_KEY == "") = true := by
        simp [hb]
      simp [h1, hb]
    · have h1 : (s.API_KEY == "" || pyStrip s.API_KEY == "") = false := by
        simp only [Bool.or_eq_false_iff, beq_eq_false_iff_ne, ne_eq]
        refine ⟨?_, hb⟩
        intro hk
        apply hb
        rw [hk]
        decide
      simp only [h1, hb, if_false, Bool.false_eq_true]
      cases hfind : findApiKey s hs with
      | none => simp [truthy]
      | some v =>
        by_cases hv : v = ""
        · simp [hv, truthy]
        · have htr : truthy (some v) = true := by simp [truthy, hv]
          simp only [htr, Bool.not_true, if_false, hv, Option.getD_some,
            Bool.false_eq_true]
          by_cases ht : pyStrip v = pyStrip s.API_KEY
          · simp [hv, ht]
          · simp [hv, ht]

/-! ## Header lemmas -/

theorem headersGet_append (hs l2 : List (String × String)) (n : String) :
    headersGet (hs ++ l2) n =
      match headersGet hs n with
      | some w => some w
      | none => headersGet l2 n := by
  induction hs with
  | nil => simp [headersGet]
  | cons p hs ih =>
    unfold headersGet at ih ⊢
    cases hp : (pyLower p.1 == pyLower n) with
    | true => simp [hp]
    | false => simpa [hp] using ih

theorem headersGet_mapset_self (hs : List (String × String)) (n v : String) :
    headersGet (hs.map (fun p => if pyLower p.1 == pyLower n then (n, v) else p)) n =
      if hs.any (fun p => pyLower p.1 == pyLower n) then some v else none := by
  induction hs with
  | nil => simp [headersGet]
  | cons p hs ih =>
    unfold headersGet at ih ⊢
    cases hp : (pyLower p.1 == pyLower n) with
    | true =>
      rw [List.map_cons, if_pos hp, List.find?_cons_of_pos _ (by simp),
        List.any_cons, hp, Bool.true_or, if_pos rfl]
    | false =>
      rw [List.map_cons, if_neg (by simp [hp]), List.find?_cons_of_neg _ (by simp [hp]),
        List.any_cons, hp, Bool.false_or]
      exact ih

theorem headersGet_mapset_other (hs : List (String × String)) (n v n' : String)
    (h : ¬ pyLower n' = pyLower n) :
    headersGet (hs.map (fun p => if pyLower p.1 == pyLower n then (n, v) else p)) n' =
      headersGet hs n' := by
  have hn' : (pyLower n == pyLower n') = false := by
    simp only [beq_eq_false_iff_ne, ne_eq]
    intro hc
    exact h hc.symm
  induction hs with
  | nil => rfl
  | cons p hs ih =>
    unfold headersGet at ih ⊢
    cases hp : (pyLower p.1 == pyLower n) with
    | true =>
      have hp1 : pyLower p.1 = pyLower n := by simpa using hp
      have hpn' : (pyLower p.1 == pyLower n') = false := by
        rw [hp1]
        exact hn'
      rw [List.map_cons, if_pos hp, List.find?_cons_of_neg _ (by simp [hn']),
        List.find?_cons_of_neg _ (by simp [hpn'])]
      exact ih
    | false =>
      rw [List.map_cons, if_neg (by simp [hp])]
      cases hpn : (pyLower p.1 == pyLower n') with
      | true =>
        rw [List.find?_cons_of_pos _ (by simp [hpn]), List.find?_cons_of_pos _ (by simp [hpn])]
      | false =>
        rw [List.find?_cons_of_neg _ (by simp [hpn]), List.find?_cons_of_neg _ (by simp [hpn])]
        exact ih

theorem headersGet_hset_self (hs : List (String × String)) (n v : String) :
    headersGet (hset hs n v) n = some v := by
  unfold hset
  by_cases hany : hs.any (fun p => pyLower p.1 == pyLower n)
  · rw [if_pos hany, headersGet_mapset_self, if_pos hany]
  · rw [if_neg hany, headersGet_append]
    have hnone : headersGet hs n = none := by
      unfold headersGet
      rw [List.find?_eq_none.mpr]
      intro p hp hmatch
      exact hany (List.any_eq_true.mpr ⟨p, hp, hmatch⟩)
    rw [hnone]
    simp [headersGet]

theorem headersGet_hset_other (hs : List (String × String)) (n v n' : String)
    (h : ¬ pyLower n' = pyLower n) :
    headersGet (hset hs n v) n' = headersGet hs n' := by
  unfold hset
  by_cases hany : hs.any (fun p => pyLower p.1 == pyLower n)
  · rw [if_pos hany, headersGet_mapset_other _ _ _ _ h]
  · rw [if_neg hany, headersGet_append]
    cases hfind : headersGet hs n' with
    | some w => rfl
    | none =>
      have hn' : (pyLower n == pyLower n') = false := by
        simp only [beq_eq_false_iff_ne, ne_eq]
        intro hc
        exact h hc.symm
      simp [headersGet, hn']

theorem headersGet_hdel_other (hs : List (String × String)) (name n' : String)
    (h : ¬ pyLower n' = pyLower name) :
    headersGet (hdel hs name) n' = headersGet hs n' := by
  induction hs with
  | nil => rfl
  | cons p hs ih =>
    unfold hdel at ih ⊢
    unfold headersGet at ih ⊢
    cases hp : (pyLower p.1 == pyLower name) with
    | true =>
      have hp1 : pyLower p.1 = pyLower name := by simpa using hp
      have hpn' : (pyLower p.1 == pyLower n') = false := by
        rw [hp1]
        simp only [beq_eq_false_iff_ne, ne_eq]
        intro hc
        exact h hc.symm
      rw [List.filter_cons_of_neg (by simp [hp]),
        List.find?_cons_of_neg _ (by simp [hpn'])]
      exact ih
    | false =>
      rw [List.filter_cons_of_pos (by simp [hp])]
      cases hpn : (pyLower p.1 == pyLower n') with
      | true =>
        rw [List.find?_cons_of_pos _ (by simp [hpn]), List.find?_cons_of_pos _ (by simp [hpn])]
      | false =>
        rw [List.find?_cons_of_neg _ (by simp [hpn]), List.find?_cons_of_neg _ (by simp [hpn])]
        exact ih

/-! ## Decoration lemmas -/

theorem applySecurityHeaders_status (r : Response) :
    (applySecurityHeaders r).status = r.status := rfl

theorem addRateLimitHeaders_status (s : Settings) (rm rh : ℤ) (r : Response) :
    (addRateLimitHeaders s rm rh r).status = r.status := rfl

theorem headersGet_applySecurityHeaders_cto (r : Response) :
    headersGet (applySecurityHeaders r).headers "X-Content-Type-Options" =
      some "nosniff" := by
  unfold applySecurityHeaders
  dsimp only
  by_cases hsrv : (hset (hset (hset (hset (hset r.headers
      "X-Content-Type-Options" "nosniff") "X-Frame-Options" "DENY")
      "X-XSS-Protection" "1; mode=block")
      "Strict-Transport-Security" "max-age=31536000; includeSubDomains")
      "Referrer-Policy" "strict-origin-when-cross-origin").any
      (fun p => pyLower p.1 == "server")
  · rw [if_pos hsrv]
    rw [headersGet_hdel_other _ _ _ (by decide),
      headersGet_hset_other _ _ _ _ (by decide),
      headersGet_hset_other _ _ _ _ (by decide),
      headersGet_hset_other _ _ _ _ (by decide),
      headersGet_hset_other _ _ _ _ (by decide),
      headersGet_hset_self]
  · rw [if_neg hsrv]
    rw [headersGet_hset_other _ _ _ _ (by decide),
      headersGet_hset_other _ _ _ _ (by decide),
      headersGet_hset_other _ _ _ _ (by decide),
      headersGet_hset_other _ _ _ _ (by decide),
      headersGet_hset_self]

theorem headersGet_applySecurityHeaders_other (r : Response) (n : String)
    (h1 : ¬ pyLower n = "x-content-type-options")
    (h2 : ¬ pyLower n = "x-frame-options")
    (h3 : ¬ pyLower n = "x-xss-protection")
    (h4 : ¬ pyLower n = "strict-transport-security")
    (h5 : ¬ pyLower n = "referrer-policy")
    (h6 : ¬ pyLower n = "server") :
    headersGet (applySecurityHeaders r).headers n = headersGet r.headers n := by
  have e1 : pyLower "X-Content-Type-Options" = "x-content-type-options" := by decide
  have e2 : pyLower "X-Frame-Options" = "x-frame-options" := by decide
  have e3 : pyLower "X-XSS-Protection" = "x-xss-protection" := by decide
  have e4 : pyLower "Strict-Transport-Security" = "strict-transport-security" := by decide
  have e5 : pyLower "Referrer-Policy" = "referrer-policy" := by decide
  have e6 : pyLower "server" = "server" := by decide
  unfold applySecurityHeaders
  dsimp only
  by_cases hsrv : (hset (hset (hset (hset (hset r.headers
      "X-Content-Type-Options" "nosniff") "X-Frame-Options" "DENY")
      "X-XSS-Protection" "1; mode=block")
      "Strict-Transport-Security" "max-age=31536000; includeSubDomains")
      "Referrer-Policy" "strict-origin-when-cross-origin").any
      (fun p => pyLower p.1 == "server")
  · rw [if_pos hsrv]
    rw [headersGet_hdel_other _ _ _ (e6 ▸ h6),
      headersGet_hset_other _ _ _ _ (e5 ▸ h5),
      headersGet_hset_other _ _ _ _ (e4 ▸ h4),
      headersGet_hset_other _ _ _ _ (e3 ▸ h3),
      headersGet_hset_other _ _ _ _ (e2 ▸ h2),
      headersGet_hset_other _ _ _ _ (e1 ▸ h1)]
  · rw [if_neg hsrv]
    rw [headersGet_hset_other _ _ _ _ (e5 ▸ h5),
      headersGet_hset_other _ _ _ _ (e4 ▸ h4),
      headersGet_hset_other _ _ _ _ (e3 ▸ h3),
      headersGet_hset_other _ _ _ _ (e2 ▸ h2),
      headersGet_hset_other _ _ _ _ (e1 ▸ h1)]

theorem headersGet_addRateLimitHeaders_remaining_minute (s : Settings) (rm rh : ℤ)
    (r : Response) :
    headersGet (addRateLimitHeaders s rm rh r).headers "X-RateLimit-Remaining-Minute" =
      some (toString rm) := by
  unfold addRateLimitHeaders
  dsimp only
  rw [headersGet_hset_other _ _ _ _ (by decide),
    headersGet_hset_other _ _ _ _ (by decide),
    headersGet_hset_self]

theorem headersGet_addRateLimitHeaders_other (s : Settings) (rm rh : ℤ)
    (r : Response) (n : String)
    (h1 : ¬ pyLower n = "x-ratelimit-limit-minute")
    (h2 : ¬ pyLower n = "x-ratelimit-remaining-minute")
    (h3 : ¬ pyLower n = "x-ratelimit-limit-hour")
    (h4 : ¬ pyLower n = "x-ratelimit-remaining-hour") :
    headersGet (addRateLimitHeaders s rm rh r).headers n = headersGet r.headers n := by
  have e1 : pyLower "X-RateLimit-Limit-Minute" = "x-ratelimit-limit-minute" := by decide
  have e2 : pyLower "X-RateLimit-Remaining-Minute" = "x-ratelimit-remaining-minute" := by
    decide
  have e3 : pyLower "X-RateLimit-Limit-Hour" = "x-ratelimit-limit-hour" := by decide
  have e4 : pyLower "X-RateLimit-Remaining-Hour" = "x-ratelimit-remaining-hour" := by
    decide
  unfold addRateLimitHeaders
  dsimp only
  rw [headersGet_hset_other _ _ _ _ (e4 ▸ h4),
    headersGet_hset_other _ _ _ _ (e3 ▸ h3),
    headersGet_hset_other _ _ _ _ (e2 ▸ h2),
    headersGet_hset_other _ _ _ _ (e1 ▸ h1)]

theorem finalize_headers (s : Settings) (rm rh pt : ℤ) (r0 : Response) :
    (applySecurityHeaders (addRateLimitHeaders s rm rh
      { r0 with headers := hset r0.headers "X-Process-Time" (toString pt) })).status =
        r0.status ∧
    headersGet (applySecurityHeaders (addRateLimitHeaders s rm rh
      { r0 with headers := hset r0.headers "X-Process-Time" (toString pt) })).headers
      "X-Process-Time" = some (toString pt) ∧
    headersGet (applySecurityHeaders (addRateLimitHeaders s rm rh
      { r0 with headers := hset r0.headers "X-Process-Time" (toString pt) })).headers
      "X-RateLimit-Remaining-Minute" = some (toString rm) ∧
    headersGet (applySecurityHeaders (addRateLimitHeaders s rm rh
      { r0 with headers := hset r0.headers "X-Process-Time" (toString pt) })).headers
      "X-Content-Type-Options" = some "nosniff" := by
  refine ⟨?_, ?_, ?_, headersGet_applySecurityHeaders_cto _⟩
  · rw [applySecurityHeaders_status, addRateLimitHeaders_status]
  · rw [headersGet_applySecurityHeaders_other _ _ (by decide) (by decide) (by decide)
      (by decide) (by decide) (by decide),
      headersGet_addRateLimitHeaders_other _ _ _ _ _ (by decide) (by decide) (by decide)
      (by decide)]
    exact headersGet_hset_self _ _ _
  · rw [headersGet_applySecurityHeaders_other _ _ (by decide) (by decide) (by decide)
      (by decide) (by decide) (by decide)]
    exact headersGet_addRateLimitHeaders_remaining_minute _ _ _ _

theorem apiKeyLayer_shortcircuit (s : Settings) (req : Request)
    (ha : apiKeyDecision mainExcludePaths s req.path req.headers ≠ .allow)
    (i1 i2 : Except Exc Response) :
    apiKeyLayer mainExcludePaths s req i1 = apiKeyLayer mainExcludePaths s req i2 := by
  unfold apiKeyLayer
  cases hd : apiKeyDecision mainExcludePaths s req.path req.headers with
  | allow => exact absurd hd ha
  | misconfigured => rfl
  | unauthorized => rfl
  | forbidden => rfl

/-- C8, amended: The request logger runs its completion action and
attaches `X-Process-Time` for every inner chain that returns a response
(including 401/403/500 short-circuits of the authenticator); but when the
inner chain raises, the exception propagates through the logger untouched:
the completion action does not run and no header is attached
(`logging.py` has no `try`/`finally` around `call_next`). -/
theorem C8_logger_finalizes_responses_only (process_time : ℤ) :
    (∀ r : Response, loggingLayer process_time (.ok r) =
      (.ok { r with
        headers := hset r.headers "X-Process-Time" (toString process_time) }, true)) ∧
    (∀ e : Exc, loggingLayer process_time (.error e) = (.error e, false)) :=
  ⟨fun _ => rfl, fun _ => rfl⟩

/-- C8 counterexample: A concrete request that enters the logger (rate
limiting disabled, valid credential) whose route handler raises: the
pipeline propagates the exception, the completion flag is `false` and the
outcome carries no `X-Process-Time` header — refuting the claim that the
logger finalizes the response regardless of errors. -/
theorem C8_counterexample :
    pipeline disabledSettings emptyState
      { path := "/api/v1/articles", headers := [("X-API-Key", "abc123")],
        clientHost := some "9.9.9.9" } 0 7
      (fun _ => .error (.other "boom")) =
      (.error (.other "boom"), emptyState, false) ∧
    headersGet (resultHeaders (pipeline disabledSettings emptyState
      { path := "/api/v1/articles", headers := [("X-API-Key", "abc123")],
        clientHost := some "9.9.9.9" } 0 7
      (fun _ => .error (.other "boom"))).1) "X-Process-Time" = none := by
  constructor
  · rfl
  · rfl

/-- C4, amended: The pipeline is the fixed composition Security Headers →
Rate Limiter → CORS → Request Logger → API Key Authenticator → route
handler.  (i) An authenticator short-circuit skips the handler: the outcome
does not depend on it.  (ii) When the limiter admits, an authenticator
401/403/500 response passes back out through logger, limiter and security
headers and is decorated by each (X-Process-Time, quota headers,
X-Content-Type-Options).  (iii) A rate-limit rejection, however, is raised
as an `HTTPException` that skips the inner chain (the logger never runs)
and propagates through the outer security-headers layer without any
decoration. -/
theorem C4_pipeline_order (s : Settings) (st : RateLimitState) (req : Request)
    (t pt : ℤ) :
    (apiKeyDecision mainExcludePaths s req.path req.headers ≠ .allow →
      ∀ h1 h2 : Request → Except Exc Response,
        pipeline s st req t pt h1 = pipeline s st req t pt h2) ∧
    (∀ rm rh : ℤ,
      (rateLimitDispatch s st req.path (getClientIp req) t).1 = .allow rm rh →
      apiKeyDecision mainExcludePaths s req.path req.headers ≠ .allow →
      ∀ hnd : Request → Except Exc Response,
        ∃ r : Response,
          (pipeline s st req t pt hnd).1 = .ok r ∧
          (r.status = 500 ∨ r.status = 401 ∨ r.status = 403) ∧
          headersGet r.headers "X-Process-Time" = some (toString pt) ∧
          headersGet r.headers "X-RateLimit-Remaining-Minute" = some (toString rm) ∧
          headersGet r.headers "X-Content-Type-Options" = some "nosniff") ∧
    (∀ (ra : Nat) (sc : Scope),
      (rateLimitDispatch s st req.path (getClientIp req) t).1 = .reject ra sc →
      ∀ hnd : Request → Except Exc Response,
        pipeline s st req t pt hnd =
          (.error (.http 429 (rejectDetail s sc) [("Retry-After", toString ra)]),
           (rateLimitDispatch s st req.path (getClientIp req) t).2, false)) := by
  refine ⟨?_, ?_, ?_⟩
  · intro ha h1 h2
    have hak : apiKeyLayer mainExcludePaths s req (h1 req) =
        apiKeyLayer mainExcludePaths s req (h2 req) :=
      apiKeyLayer_shortcircuit s req ha _ _
    unfold pipeline innerChain corsLayer
    rw [hak]
  · intro rm rh hdall ha hnd
    rcases hdp : rateLimitDispatch s st req.path (getClientIp req) t with ⟨res, st'⟩
    rw [hdp] at hdall
    simp only at hdall
    subst hdall
    cases hd : apiKeyDecision mainExcludePaths s req.path req.headers with
    | allow => exact absurd hd ha
    | misconfigured =>
      refine ⟨_, ?_, Or.inl rfl, (finalize_headers s rm rh pt
        { status := 500, headers := [] }).2.1,
        (finalize_headers s rm rh pt { status := 500, headers := [] }).2.2.1,
        (finalize_headers s rm rh pt { status := 500, headers := [] }).2.2.2⟩
      unfold pipeline innerChain corsLayer apiKeyLayer loggingLayer
      rw [hdp, hd]
      rfl
    | unauthorized =>
      refine ⟨_, ?_, Or.inr (Or.inl rfl), (finalize_headers s rm rh pt
        { status := 401, headers := [("WWW-Authenticate", "ApiKey")] }).2.1,
        (finalize_headers s rm rh pt
          { status := 401, headers := [("WWW-Authenticate", "ApiKey")] }).2.2.1,
        (finalize_headers s rm rh pt
          { status := 401, headers := [("WWW-Authenticate", "ApiKey")] }).2.2.2⟩
      unfold pipeline innerChain corsLayer apiKeyLayer loggingLayer
      rw [hdp, hd]
      rfl
    | forbidden =>
      refine ⟨_, ?_, Or.inr (Or.inr rfl), (finalize_headers s rm rh pt
        { status := 403, headers := [] }).2.1,
        (finalize_headers s rm rh pt { status := 403, headers := [] }).2.2.1,
        (finalize_headers s rm rh pt { status := 403, headers := [] }).2.2.2⟩
      unfold pipeline innerChain corsLayer apiKeyLayer loggingLayer
      rw [hdp, hd]
      rfl
  · intro ra sc hrej hnd
    rcases hdp : rateLimitDispatch s st req.path (getClientIp req) t with ⟨res, st'⟩
    rw [hdp] at hrej
    simp only at hrej
    subst hrej
    unfold pipeline
    rw [hdp]
    rfl

/-- C4 counterexample: A concrete rate-limited request: the pipeline's
outcome is the raised 429 exception carrying only `Retry-After`; the
already-entered outer security-headers layer does not decorate it (no
`X-Content-Type-Options`), and no elapsed-time header exists — refuting the
claim that every already-entered outer layer still decorates every
short-circuited response. -/
theorem C4_counterexample :
    (pipeline zeroLimitSettings emptyState
      { path := "/api/v1/articles", headers := [], clientHost := some "1.2.3.4" } 0 0
      (fun _ => .ok { status := 200, headers := [] })).1 =
      .error (.http 429 (rejectDetail zeroLimitSettings .minute)
        [("Retry-After", "60")]) ∧
    headersGet (resultHeaders (pipeline zeroLimitSettings emptyState
      { path := "/api/v1/articles", headers := [], clientHost := some "1.2.3.4" } 0 0
      (fun _ => .ok { status := 200, headers := [] })).1) "X-Content-Type-Options" =
      none ∧
    headersGet (resultHeaders (pipeline zeroLimitSettings emptyState
      { path := "/api/v1/articles", headers := [], clientHost := some "1.2.3.4" } 0 0
      (fun _ => .ok { status := 200, headers := [] })).1) "X-Process-Time" = none := by
  refine ⟨rfl, rfl, rfl⟩

/-- Witness for C4 at a concrete missing-credential request admitted by the
limiter: the 401 response comes back decorated by all outer layers. -/
theorem C4_witness :
    (rateLimitDispatch sampleSettings emptyState "/api/v1/articles"
      (getClientIp
        { path := "/api/v1/articles", headers := [], clientHost := some "1.2.3.4" })
      0).1 = .allow 59 999 ∧
    apiKeyDecision mainExcludePaths sampleSettings "/api/v1/articles" [] ≠ .allow ∧
    ∃ r : Response,
      (pipeline sampleSettings emptyState
        { path := "/api/v1/articles", headers := [], clientHost := some "1.2.3.4" } 0 7
        (fun _ => .ok { status := 200, headers := [] })).1 = .ok r ∧
      (r.status = 500 ∨ r.status = 401 ∨ r.status = 403) ∧
      headersGet r.headers "X-Process-Time" = some (toString (7:ℤ)) ∧
      headersGet r.headers "X-RateLimit-Remaining-Minute" = some (toString (59:ℤ)) ∧
      headersGet r.headers "X-Content-Type-Options" = some "nosniff" :=
  ⟨by decide, by decide,
   (C4_pipeline_order sampleSettings emptyState
     { path := "/api/v1/articles", headers := [], clientHost := some "1.2.3.4" } 0 7).2.1
     59 999 (by decide) (by decide) _⟩

/-! ## Trace lemmas -/

theorem runTrace_length (s : Settings) (st : RateLimitState)
    (l : List (String × String × ℤ)) : (runTrace s st l).1.length = l.length := by
  induction l generalizing st with
  | nil => rfl
  | cons r rest ih => simp [runTrace, ih]

theorem countP_le_of_tail_reject (l : List RLResult) :
    ∀ n : Nat, (∀ i, i < l.length → n ≤ i → l[i]? = some (.reject 60 .minute)) →
      l.countP isAllow ≤ n := by
  induction l with
  | nil => intro n _; simp
  | cons a l ih =>
    intro n hn
    cases n with
    | zero =>
      have ha : a = .reject 60 .minute := by
        have h0 := hn 0 (by simp) (by omega)
        simpa using h0
      have hl : ∀ i, i < l.length → 0 ≤ i → l[i]? = some (.reject 60 .minute) := by
        intro i hi _
        have := hn (i+1) (by simpa using Nat.succ_lt_succ hi) (by omega)
        simpa using this
      have htail := ih 0 hl
      rw [List.countP_cons, ha]
      simpa [isAllow] using htail
    | succ m =>
      have hl : ∀ i, i < l.length → m ≤ i → l[i]? = some (.reject 60 .minute) := by
        intro i hi hmi
        have := hn (i+1) (by simpa using Nat.succ_lt_succ hi) (by omega)
        simpa using this
      have htail := ih m hl
      rw [List.countP_cons]
      have hle : (if isAllow a = true then 1 else 0) ≤ 1 := by
        split <;> omega
      omega

theorem runTrace_window_aux (s : Settings) (c : String)
    (hen : s.RATE_LIMIT_ENABLED = true)
    (hlim : s.RATE_LIMIT_PER_MINUTE ≤ s.RATE_LIMIT_PER_HOUR) :
    ∀ (reqs : List (String × ℤ)) (st : RateLimitState) (A : List ℤ),
    (∀ r ∈ reqs, rateLimitBypassPaths.contains r.1 = false) →
    (∀ r ∈ reqs, ∀ r' ∈ reqs, r'.2 - r.2 < 60) →
    alNodupKeys st.requests_per_minute →
    alNodupKeys st.requests_per_hour →
    alGet st.requests_per_minute c = A →
    alGet st.requests_per_hour c = A →
    (∀ x ∈ A, ∀ r ∈ reqs, x > r.2 - 60) →
    ∀ i, i < reqs.length →
      ((runTrace s st (reqs.map (fun r => (r.1, c, r.2)))).1)[i]? =
        some (expectedResult s.RATE_LIMIT_PER_MINUTE s.RATE_LIMIT_PER_HOUR
          (A.length + i)) := by
  intro reqs
  induction reqs with
  | nil =>
    intro st A _ _ _ _ _ _ _ i hi
    simp at hi
  | cons r rest ih =>
    obtain ⟨p, t⟩ := r
    intro st A hpaths hwin hndm hndh hm hh hA i hi
    have hmem : ((p, t) : String × ℤ) ∈ (p, t) :: rest := List.mem_cons_self _ _
    have hpath0 : rateLimitBypassPaths.contains p = false := hpaths (p, t) hmem
    have hA60 : ∀ x ∈ A, x > t - 60 := fun x hx => hA x hx (p, t) hmem
    have hA3600 : ∀ x ∈ A, x > t - 3600 := fun x hx => by
      have := hA60 x hx
      omega
    have h1 : alGet (cleanupOldEntries st t).requests_per_minute c = A := by
      rw [alGet_cleanup_minute hndm (by rw [hm]; exact hA60)]
      exact hm
    have h2 : alGet (cleanupOldEntries st t).requests_per_hour c = A := by
      rw [alGet_cleanup_hour hndh (by rw [hh]; exact hA3600)]
      exact hh
    have FA : A.filter (fun ts => ts > t - 60) = A :=
      List.filter_eq_self.mpr (fun a ha => by simpa using hA60 a ha)
    have FB : A.filter (fun ts => ts > t - 3600) = A :=
      List.filter_eq_self.mpr (fun a ha => by simpa using hA3600 a ha)
    have hndm1 : alNodupKeys (cleanupOldEntries st t).requests_per_minute :=
      cleanup_nodup_minute hndm
    have hndh1 : alNodupKeys (cleanupOldEntries st t).requests_per_hour :=
      cleanup_nodup_hour hndh
    have hpaths' : ∀ r ∈ rest, rateLimitBypassPaths.contains r.1 = false :=
      fun r hr => hpaths r (List.mem_cons_of_mem _ hr)
    have hwin' : ∀ r ∈ rest, ∀ r' ∈ rest, r'.2 - r.2 < 60 :=
      fun r hr r' hr' => hwin r (List.mem_cons_of_mem _ hr) r'
        (List.mem_cons_of_mem _ hr')
    have hA' : ∀ x ∈ A, ∀ r ∈ rest, x > r.2 - 60 :=
      fun x hx r hr => hA x hx r (List.mem_cons_of_mem _ hr)
    have hrt : (runTrace s st (((p, t) :: rest).map (fun r => (r.1, c, r.2)))).1 =
        (rateLimitDispatch s st p c t).1 ::
        (runTrace s (rateLimitDispatch s st p c t).2
          (rest.map (fun r => (r.1, c, r.2)))).1 := by
      simp [runTrace]
    by_cases hcase : s.RATE_LIMIT_PER_MINUTE ≤ A.length
    · -- the minute window is full: this and every further request is rejected
      have hmcond : s.RATE_LIMIT_PER_MINUTE ≤
          ((alGet (cleanupOldEntries st t).requests_per_minute c).filter
            (fun ts => ts > t - 60)).length := by
        rw [h1, FA]
        exact hcase
      have hdp := dispatch_reject_minute hpath0 hen hmcond
      rw [hrt, hdp]
      cases i with
      | zero =>
        simp only [List.getElem?_cons_zero]
        rw [Nat.add_zero]
        unfold expectedResult
        rw [if_neg (by omega)]
      | succ j =>
        simp only [List.getElem?_cons_succ]
        have hstep := ih
          { requests_per_minute :=
              alEnsure (cleanupOldEntries st t).requests_per_minute c,
            requests_per_hour := (cleanupOldEntries st t).requests_per_hour,
            last_cleanup := (cleanupOldEntries st t).last_cleanup }
          A hpaths' hwin'
          (alNodupKeys_alEnsure c hndm1) hndh1
          (by rw [alGet_alEnsure]; exact h1) h2 hA'
          j (by simpa using hi)
        rw [hstep]
        unfold expectedResult
        rw [if_neg (by omega), if_neg (by omega)]
    · -- below the minute limit: admitted, and the hour check cannot fire
      have hmcond : ¬ s.RATE_LIMIT_PER_MINUTE ≤
          ((alGet (cleanupOldEntries st t).requests_per_minute c).filter
            (fun ts => ts > t - 60)).length := by
        rw [h1, FA]
        exact hcase
      have hhcond : ¬ s.RATE_LIMIT_PER_HOUR ≤
          ((alGet (cleanupOldEntries st t).requests_per_hour c).filter
            (fun ts => ts > t - 3600)).length := by
        rw [h2, FB]
        omega
      have hdp := dispatch_allow hpath0 hen hmcond hhcond
      rw [h1, FA, h2, FB] at hdp
      rw [hrt, hdp]
      cases i with
      | zero =>
        simp only [List.getElem?_cons_zero]
        rw [Nat.add_zero]
        unfold expectedResult
        rw [if_pos (by omega)]
      | succ j =>
        simp only [List.getElem?_cons_succ]
        have hAt : ∀ x ∈ A ++ [t], ∀ r ∈ rest, x > r.2 - 60 := by
          intro x hx r hr
          rcases List.mem_append.mp hx with hx | hx
          · exact hA' x hx r hr
          · have hxt : x = t := by simpa using hx
            have := hwin (p, t) hmem r (List.mem_cons_of_mem _ hr)
            omega
        have hstep := ih
          { requests_per_minute :=
              alSet (alEnsure (cleanupOldEntries st t).requests_per_minute c) c
                (A ++ [t]),
            requests_per_hour :=
              alSet (alEnsure (cleanupOldEntries st t).requests_per_hour c) c
                (A ++ [t]),
            last_cleanup := (cleanupOldEntries st t).last_cleanup }
          (A ++ [t]) hpaths' hwin'
          (alNodupKeys_alSet c _ (alNodupKeys_alEnsure c hndm1))
          (alNodupKeys_alSet c _ (alNodupKeys_alEnsure c hndh1))
          (alGet_alSet_self _ _ _) (alGet_alSet_self _ _ _) hAt
          j (by simpa using hi)
        rw [hstep]
        have hlen : (A ++ [t]).length + j = A.length + (j + 1) := by
          simp
          omega
        rw [hlen]

/-- C2: For every client, among any sequence of enabled, non-bypassed
requests from that client whose arrival times all lie within a single
60-second sliding window (starting from a state holding no timestamps for
that client, with the configured minute limit not above the hour limit),
exactly the first `perMinuteLimit` requests are allowed and every later
request is rejected with scope minute and Retry-After 60; in particular at
most `perMinuteLimit` are allowed. -/
theorem C2_minute_window_cap (s : Settings) (st0 : RateLimitState) (c : String)
    (reqs : List (String × ℤ))
    (hen : s.RATE_LIMIT_ENABLED = true)
    (hlim : s.RATE_LIMIT_PER_MINUTE ≤ s.RATE_LIMIT_PER_HOUR)
    (hpaths : ∀ r ∈ reqs, rateLimitBypassPaths.contains r.1 = false)
    (hwin : ∀ r ∈ reqs, ∀ r' ∈ reqs, r'.2 - r.2 < 60)
    (hndm : alNodupKeys st0.requests_per_minute)
    (hndh : alNodupKeys st0.requests_per_hour)
    (hm0 : alGet st0.requests_per_minute c = [])
    (hh0 : alGet st0.requests_per_hour c = []) :
    (∀ i, i < reqs.length →
      ((runTrace s st0 (reqs.map (fun r => (r.1, c, r.2)))).1)[i]? =
        some (if i < s.RATE_LIMIT_PER_MINUTE then
          RLResult.allow ((s.RATE_LIMIT_PER_MINUTE : ℤ) - (i + 1))
            ((s.RATE_LIMIT_PER_HOUR : ℤ) - (i + 1))
          else RLResult.reject 60 .minute)) ∧
    (runTrace s st0 (reqs.map (fun r => (r.1, c, r.2)))).1.countP isAllow ≤
      s.RATE_LIMIT_PER_MINUTE := by
  have haux := runTrace_window_aux s c hen hlim reqs st0 []
    hpaths hwin hndm hndh hm0 hh0 (by simp)
  have hpt : ∀ i, i < reqs.length →
      ((runTrace s st0 (reqs.map (fun r => (r.1, c, r.2)))).1)[i]? =
        some (if i < s.RATE_LIMIT_PER_MINUTE then
          RLResult.allow ((s.RATE_LIMIT_PER_MINUTE : ℤ) - (i + 1))
            ((s.RATE_LIMIT_PER_HOUR : ℤ) - (i + 1))
          else RLResult.reject 60 .minute) := by
    intro i hi
    have := haux i hi
    rw [this]
    unfold expectedResult
    rw [List.length_nil, Nat.zero_add]
  refine ⟨hpt, ?_⟩
  apply countP_le_of_tail_reject
  intro i hilen hge
  have hlen : (runTrace s st0 (reqs.map (fun r => (r.1, c, r.2)))).1.length =
      reqs.length := by
    rw [runTrace_length, List.length_map]
  rw [hlen] at hilen
  have := hpt i hilen
  rw [this, if_neg (by omega)]

/-- C6: On every allowed request the two remaining-quota values are
`max 0 (limit - count)` for the recorded count of their scope and are never
negative; concretely, with perMinuteLimit 60 a client sending 60 requests
in one second is allowed each time with the minute remainder counting 59
down to 0, and the 61st request in the same minute is rejected with
Retry-After 60. -/
theorem C6_remaining_headers :
    (∀ (s : Settings) (st : RateLimitState) (path c : String) (t rm rh : ℤ),
      (rateLimitDispatch s st path c t).1 = .allow rm rh →
      0 ≤ rm ∧ 0 ≤ rh ∧
      rm = max 0 ((s.RATE_LIMIT_PER_MINUTE : ℤ) -
        (alGet (rateLimitDispatch s st path c t).2.requests_per_minute c).length) ∧
      rh = max 0 ((s.RATE_LIMIT_PER_HOUR : ℤ) -
        (alGet (rateLimitDispatch s st path c t).2.requests_per_hour c).length)) ∧
    (runTrace sampleSettings emptyState
      (List.replicate 60 ("/api/v1/articles", "1.2.3.4", (0:ℤ)) ++
        [("/api/v1/articles", "1.2.3.4", (1:ℤ))])).1 =
      (List.range 60).map (fun i => RLResult.allow (59 - (i : ℤ)) (999 - (i : ℤ)))
        ++ [RLResult.reject 60 .minute] := by
  constructor
  · intro s st path c t rm rh hall
    by_cases hbp : rateLimitBypassPaths.contains path
    · rw [dispatch_bypass_path hbp] at hall
      simp at hall
    · by_cases hen : s.RATE_LIMIT_ENABLED
      · have hbp' : rateLimitBypassPaths.contains path = false := by simpa using hbp
        by_cases hm : s.RATE_LIMIT_PER_MINUTE ≤
            ((alGet (cleanupOldEntries st t).requests_per_minute c).filter
              (fun ts => ts > t - 60)).length
        · rw [dispatch_reject_minute hbp' hen hm] at hall
          simp at hall
        · by_cases hh : s.RATE_LIMIT_PER_HOUR ≤
              ((alGet (cleanupOldEntries st t).requests_per_hour c).filter
                (fun ts => ts > t - 3600)).length
          · rw [dispatch_reject_hour hbp' hen hm hh] at hall
            simp at hall
          · have hdp := dispatch_allow hbp' hen hm hh
            rw [hdp] at hall ⊢
            simp only at hall
            obtain ⟨hrm, hrh⟩ := RLResult.allow.inj hall
            subst hrm
            subst hrh
            rw [alGet_alSet_self]
            have hhget := alGet_alSet_self
              (alEnsure (cleanupOldEntries st t).requests_per_hour c) c
              ((alGet (cleanupOldEntries st t).requests_per_hour c).filter
                (fun ts => ts > t - 3600) ++ [t])
            rw [hhget]
            push_cast [List.length_append, List.length_singleton]
            refine ⟨by omega, by omega, by rw [max_eq_right (by omega)], ?_⟩
            rw [max_eq_right (by omega)]
      · have hen' : s.RATE_LIMIT_ENABLED = false := by simpa using hen
        rw [dispatch_disabled hen'] at hall
        simp at hall
  · decide

/-- Witness for C2 on a concrete two-request burst. -/
theorem C2_witness :
    sampleSettings.RATE_LIMIT_ENABLED = true ∧
    (runTrace sampleSettings emptyState
      (([("/api/v1/articles", (0:ℤ)), ("/api/v1/articles", 10)] :
        List (String × ℤ)).map (fun r => (r.1, "1.2.3.4", r.2)))).1.countP isAllow ≤
      sampleSettings.RATE_LIMIT_PER_MINUTE :=
  ⟨rfl, (C2_minute_window_cap sampleSettings emptyState "1.2.3.4"
    [("/api/v1/articles", 0), ("/api/v1/articles", 10)] rfl (by decide) (by decide)
    (by decide) (by simp [alNodupKeys, emptyState]) (by simp [alNodupKeys, emptyState])
    rfl rfl).2⟩

/-- Witness for C6 at a concrete first admitted request. -/
theorem C6_witness :
    (rateLimitDispatch sampleSettings emptyState "/api/v1/articles" "1.2.3.4" 0).1 =
      .allow 59 999 ∧
    (0 ≤ (59:ℤ) ∧ 0 ≤ (999:ℤ) ∧
      (59:ℤ) = max 0 ((sampleSettings.RATE_LIMIT_PER_MINUTE : ℤ) -
        (alGet (rateLimitDispatch sampleSettings emptyState "/api/v1/articles"
          "1.2.3.4" 0).2.requests_per_minute "1.2.3.4").length) ∧
      (999:ℤ) = max 0 ((sampleSettings.RATE_LIMIT_PER_HOUR : ℤ) -
        (alGet (rateLimitDispatch sampleSettings emptyState "/api/v1/articles"
          "1.2.3.4" 0).2.requests_per_hour "1.2.3.4").length)) :=
  ⟨by decide, C6_remaining_headers.1 sampleSettings emptyState "/api/v1/articles"
    "1.2.3.4" 0 59 999 (by decide)⟩

end ArticleGen
